import Mathlib

/-!
Verification of the sway-spawn window toggler (src/main.rs).

The development shallowly embeds the core of the program:
the `SwayWindow` record, the `WindowIdentifier` criterion, the matcher
`matches_identifier`, the aggregate-state resolution (`is_running`,
`is_focused` combined as in `Spawn::handle_window`), the startup-command
builder `build_startup_command`, the criteria renderer `build_criteria`,
the recursive tree extractor `extract_windows` over a JSON value model,
and the effectful toggling entry point `handle_window` over an explicit
environment that models the `swaymsg` subprocess boundary.
-/

/-- JSON values, modelling `serde_json::Value`.  Objects are association
lists of key/value pairs (a parsed JSON map has one value per key). -/
inductive Json where
  | null
  | bool (b : Bool)
  | num (n : Int)
  | str (s : String)
  | arr (elems : List Json)
  | obj (fields : List (String × Json))
deriving Repr

/-- `WindowProperties` from the source: the optional legacy class string. -/
structure WindowProperties where
  «class» : Option String
deriving Repr, DecidableEq

/-- `SwayWindow` from the source: `title` comes from the JSON field `name`,
`window_type` from the JSON field `type`. -/
structure SwayWindow where
  title : Option String
  app_id : Option String
  focused : Bool
  window_properties : Option WindowProperties
  window_type : String
deriving Repr, DecidableEq

/-- `WindowIdentifier` from the source. -/
inductive WindowIdentifier where
  | Title (t : String)
  | AppId (a : String)
  | Class (c : String)
deriving Repr, DecidableEq

/-- One application entry of the configuration (`AppConfig`). -/
structure AppConfig where
  command : String
  is_terminal : Bool
  identifier : WindowIdentifier
  startup_override : Option String
deriving Repr, DecidableEq

/-- The loaded configuration (`Spawn`): the terminal program and the map
from application names to their configs (modelled as an association list). -/
structure Spawn where
  terminal : String
  apps : List (String × AppConfig)
deriving Repr, DecidableEq

/-- Byte-level ASCII lowercasing of one character, as `u8::to_ascii_lowercase`
acts on each byte of a UTF-8 string (non-ASCII bytes are untouched, and on
valid UTF-8 the byte-wise map agrees with this character-wise map). -/
def to_ascii_lowercase (c : Char) : Char :=
  if 'A' ≤ c ∧ c ≤ 'Z' then Char.ofNat (c.toNat + 32) else c

/-- `str::eq_ignore_ascii_case`: the two strings are equal after ASCII
lowercasing (documented semantics of the Rust method). -/
def eq_ignore_ascii_case (a b : String) : Bool :=
  a.data.map to_ascii_lowercase == b.data.map to_ascii_lowercase

/-- `matches_identifier` from the source: option-chained, case-insensitive
equality of the field selected by the identifier variant. -/
def matches_identifier (w : SwayWindow) (identifier : WindowIdentifier) : Bool :=
  match identifier with
  | .Title title =>
      (w.title.map (fun t => eq_ignore_ascii_case t title)).getD false
  | .AppId app_id =>
      (w.app_id.map (fun a => eq_ignore_ascii_case a app_id)).getD false
  | .Class cls =>
      (w.window_properties.map (fun wp =>
        (wp.«class».map (fun c => eq_ignore_ascii_case c cls)).getD false)).getD false

/-- `Spawn::is_running`: some window matches the identifier. -/
def is_running (windows : List SwayWindow) (identifier : WindowIdentifier) : Bool :=
  windows.any (fun w => matches_identifier w identifier)

/-- `Spawn::is_focused`: some window is focused and matches the identifier. -/
def is_focused (windows : List SwayWindow) (identifier : WindowIdentifier) : Bool :=
  windows.any (fun w => if !w.focused then false else matches_identifier w identifier)

/-- The three-way aggregate state of the spec's StateResolver. -/
inductive AggregateState where
  | Absent
  | PresentUnfocused
  | PresentFocused
deriving Repr, DecidableEq

/-- The aggregate-state resolution, combining `is_running` and `is_focused`
exactly as the branch structure of `Spawn::handle_window` does. -/
def resolve (windows : List SwayWindow) (identifier : WindowIdentifier) : AggregateState :=
  if is_running windows identifier then
    if is_focused windows identifier then .PresentFocused else .PresentUnfocused
  else .Absent

example : resolve [] (.AppId "obsidian") = .Absent := by decide

example :
    resolve [⟨none, some "obsidian", false, none, "con"⟩] (.AppId "obsidian") =
      .PresentUnfocused := by decide

example :
    resolve [⟨none, some "Obsidian", true, none, "con"⟩] (.AppId "obsidian") =
      .PresentFocused := by decide

example :
    matches_identifier ⟨some "fish", none, false, none, "con"⟩ (.Title "FiSh") = true := by
  decide

/-- Lookup of a key in a JSON object's field list (`serde_json::Value::get`
on an object; a parsed map holds one value per key). -/
def getField : List (String × Json) → String → Option Json
  | [], _ => none
  | (k, v) :: rest, key => if k = key then some v else getField rest key

/-- `Value::get`: field lookup, `none` on non-objects. -/
def Json.get : Json → String → Option Json
  | .obj fields, key => getField fields key
  | _, _ => none

/-- `node.get(key).and_then(|n| n.as_array())`, with a missing or non-array
field giving no children to recurse into. -/
def Json.getArr (j : Json) (key : String) : List Json :=
  match j.get key with
  | some (.arr elems) => elems
  | _ => []

theorem sizeOf_getField {fields : List (String × Json)} {key : String} {v : Json}
    (h : getField fields key = some v) : sizeOf v < sizeOf fields := by
  induction fields with
  | nil => simp [getField] at h
  | cons p rest ih =>
    obtain ⟨k, w⟩ := p
    simp only [getField] at h
    by_cases hk : k = key
    · simp [hk] at h
      subst h
      simp
      omega
    · have := ih (by simpa [hk] using h)
      simp
      omega

theorem sizeOf_mem_getArr {j : Json} {key : String} {c : Json}
    (h : c ∈ j.getArr key) : sizeOf c < sizeOf j := by
  unfold Json.getArr at h
  cases j <;> simp [Json.get] at h
  case obj fields =>
    cases hf : getField fields key with
    | none => simp [hf] at h
    | some v =>
      cases v <;> simp [hf] at h
      case arr elems =>
        have h1 : sizeOf c < sizeOf elems := List.sizeOf_lt_of_mem h
        have h2 : sizeOf (Json.arr elems) < sizeOf fields := sizeOf_getField hf
        simp at h2 ⊢
        omega

theorem sizeOf_getArr_le (j : Json) (key : String) : sizeOf (j.getArr key) ≤ sizeOf j := by
  unfold Json.getArr
  cases j <;> simp [Json.get]
  case obj fields =>
    cases hf : getField fields key with
    | none => simp
    | some v =>
      cases v <;> simp
      case arr elems =>
        have h2 : sizeOf (Json.arr elems) < sizeOf fields := sizeOf_getField hf
        simp at h2
        omega

theorem Json.one_le_sizeOf (j : Json) : 1 ≤ sizeOf j := by
  cases j <;> simp

/-- serde decoding of an optional string field (`Option<String>`): a missing
field or JSON null is `none`, a JSON string succeeds, any other shape is a
decode error. -/
def decodeOptString : Option Json → Option (Option String)
  | none => some none
  | some .null => some none
  | some (.str s) => some (some s)
  | some _ => none

/-- serde decoding of the optional `window_properties` block, whose one field
`class` is itself an optional string; unknown fields are ignored. -/
def decodeOptProps : Option Json → Option (Option WindowProperties)
  | none => some none
  | some .null => some none
  | some (.obj fields) => (decodeOptString (getField fields "class")).map (fun c => some ⟨c⟩)
  | some _ => none

/-- serde decoding of a required boolean field. -/
def decodeBool : Option Json → Option Bool
  | some (.bool b) => some b
  | _ => none

/-- serde decoding of a required string field. -/
def decodeString : Option Json → Option String
  | some (.str s) => some s
  | _ => none

/-- `serde_json::from_value::<SwayWindow>`: decodes an object with
`name`, `app_id`, `focused`, `window_properties` and `type` fields
(unknown fields ignored); `none` is a decode error. -/
def decodeSwayWindow : Json → Option SwayWindow
  | .obj fields => do
      let title ← decodeOptString (getField fields "name")
      let app_id ← decodeOptString (getField fields "app_id")
      let focused ← decodeBool (getField fields "focused")
      let props ← decodeOptProps (getField fields "window_properties")
      let window_type ← decodeString (getField fields "type")
      pure ⟨title, app_id, focused, props, window_type⟩
  | _ => none

/-- The contribution of one node in `Spawn::extract_windows`: a record is
produced iff the node has a string `type` field equal to `floating_con` or
`con` and the node decodes into a `SwayWindow`. -/
def windowRecord (j : Json) : Option SwayWindow :=
  match j.get "type" with
  | some (.str window_type) =>
      if window_type = "floating_con" ∨ window_type = "con" then decodeSwayWindow j
      else none
  | _ => none

mutual

/-- `Spawn::extract_windows`: push this node's record (if any), then recurse
into the `nodes` children, then into the `floating_nodes` children.  The
returned list is the contents of the accumulator vector in push order. -/
def extract_windows (j : Json) : List SwayWindow :=
  (windowRecord j).toList
    ++ extract_windows_list (j.getArr "nodes")
    ++ extract_windows_list (j.getArr "floating_nodes")
termination_by (sizeOf j, 1)
decreasing_by
  all_goals
    rcases lt_or_eq_of_le (sizeOf_getArr_le j _) with h | h
    · exact Prod.Lex.left _ _ h
    · rw [h]
      exact Prod.Lex.right _ (by omega)

/-- The `for child in ...` loops of `Spawn::extract_windows`. -/
def extract_windows_list : List Json → List SwayWindow
  | [] => []
  | c :: rest => extract_windows c ++ extract_windows_list rest
termination_by l => (sizeOf l, 0)
decreasing_by
  · exact Prod.Lex.left _ _ (by simp only [List.cons.sizeOf_spec]; omega)
  · exact Prod.Lex.left _ _ (by simp only [List.cons.sizeOf_spec]; omega)

end

mutual

/-- The pre-order list of all nodes the extractor visits: the node itself,
then the `nodes` subtrees, then the `floating_nodes` subtrees. -/
def node_list (j : Json) : List Json :=
  j :: (node_list_list (j.getArr "nodes") ++ node_list_list (j.getArr "floating_nodes"))
termination_by (sizeOf j, 1)
decreasing_by
  all_goals
    rcases lt_or_eq_of_le (sizeOf_getArr_le j _) with h | h
    · exact Prod.Lex.left _ _ h
    · rw [h]
      exact Prod.Lex.right _ (by omega)

/-- Visited nodes of a list of subtrees. -/
def node_list_list : List Json → List Json
  | [] => []
  | c :: rest => node_list c ++ node_list_list rest
termination_by l => (sizeOf l, 0)
decreasing_by
  · exact Prod.Lex.left _ _ (by simp only [List.cons.sizeOf_spec]; omega)
  · exact Prod.Lex.left _ _ (by simp only [List.cons.sizeOf_spec]; omega)

end

theorem extract_list_eq_of (l : List Json)
    (h : ∀ c ∈ l, extract_windows c = (node_list c).filterMap windowRecord) :
    extract_windows_list l = (node_list_list l).filterMap windowRecord := by
  induction l with
  | nil => simp [extract_windows_list, node_list_list]
  | cons c rest ih =>
    rw [extract_windows_list, node_list_list]
    rw [List.filterMap_append, h c (by simp), ih (fun d hd => h d (by simp [hd]))]

theorem extract_windows_eq (j : Json) :
    extract_windows j = (node_list j).filterMap windowRecord := by
  have key : ∀ n (j : Json), sizeOf j ≤ n →
      extract_windows j = (node_list j).filterMap windowRecord := by
    intro n
    induction n with
    | zero =>
      intro j hj
      exact absurd (Json.one_le_sizeOf j) (by omega)
    | succ n ih =>
      intro j hj
      have hc : ∀ k : String, ∀ c ∈ j.getArr k,
          extract_windows c = (node_list c).filterMap windowRecord := by
        intro k c hck
        exact ih c (by have := sizeOf_mem_getArr hck; omega)
      rw [extract_windows, node_list]
      rw [extract_list_eq_of _ (hc "nodes"), extract_list_eq_of _ (hc "floating_nodes")]
      rw [List.filterMap_cons, List.filterMap_append]
      cases hw : windowRecord j <;> simp [hw]
  exact key (sizeOf j) j le_rfl

/-- `Spawn::build_startup_command`: the startup override wins verbatim;
otherwise a terminal-flagged app identified by title gets a synthesized
terminal invocation; in every other case the configured command is used. -/
def build_startup_command (spawn : Spawn) (config : AppConfig) : String :=
  match config.startup_override with
  | some override_cmd => override_cmd
  | none =>
    if config.is_terminal then
      match config.identifier with
      | .Title title =>
          spawn.terminal ++ " --title " ++ title ++ " --command " ++ config.command
      | _ => config.command
    else config.command

/-- `Spawn::build_criteria`: render the identifier as a sway criteria string. -/
def build_criteria (identifier : WindowIdentifier) : String :=
  match identifier with
  | .Title title => "[title=\"" ++ title ++ "\"]"
  | .AppId app_id => "[app_id=\"" ++ app_id ++ "\"]"
  | .Class cls => "[class=\"" ++ cls ++ "\"]"

/-- Drop the trailing quote-and-bracket of a rendered criteria string. -/
def strip_quote_bracket (cs : List Char) : Option (List Char) :=
  match cs.reverse with
  | b :: q :: rest => if b = ']' ∧ q = '\"' then some rest.reverse else none
  | _ => none

/-- Recover the identifier variant and literal value from a rendered criteria
string: the variant from the fixed predicate-name prefix, the value as
everything between the opening quote and the trailing quote-and-bracket. -/
def recover_identifier (s : String) : Option WindowIdentifier :=
  if s.data.take 8 = "[title=\"".data then
    (strip_quote_bracket (s.data.drop 8)).map (fun cs => .Title (String.mk cs))
  else if s.data.take 9 = "[app_id=\"".data then
    (strip_quote_bracket (s.data.drop 9)).map (fun cs => .AppId (String.mk cs))
  else if s.data.take 8 = "[class=\"".data then
    (strip_quote_bracket (s.data.drop 8)).map (fun cs => .Class (String.mk cs))
  else none

/-- The spec's Action type: the three corrective actions. -/
inductive SpawnAction where
  | Launch (cmd : String)
  | Focus (criteria : String)
  | Hide (criteria : String)
deriving Repr, DecidableEq

/-- The toggle decision: the branch structure of `Spawn::handle_window`,
with the three dispatched commands abstracted as `Action` values
(`exec`, `focus_window`, `move_to_scratchpad` respectively). -/
def decide_action (spawn : Spawn) (config : AppConfig) (windows : List SwayWindow) : SpawnAction :=
  if is_running windows config.identifier then
    if is_focused windows config.identifier then .Hide (build_criteria config.identifier)
    else .Focus (build_criteria config.identifier)
  else .Launch (build_startup_command spawn config)

/-- The result of one `swaymsg` subprocess run (`std::process::Output`):
whether the exit status was a success, and the stdout contents as parsed
JSON (`none` when the bytes are not a valid JSON document). -/
structure ExecOutput where
  success : Bool
  stdout : Option Json
deriving Repr

/-- The external `swaymsg` boundary: for each argument vector either an
execution failure (`Command::output` returning `Err`) or the process
output.  A non-success exit status is delivered inside `ExecOutput`. -/
structure SwayEnv where
  exec : List String → Except String ExecOutput

/-- The argument vector of the single dispatched action in
`Spawn::handle_window`: `<criteria> move scratchpad`, `<criteria> focus`,
or `exec <startup command>` following the running/focused branches. -/
def dispatch_args (spawn : Spawn) (config : AppConfig) (windows : List SwayWindow) :
    List String :=
  if is_running windows config.identifier then
    if is_focused windows config.identifier then
      [build_criteria config.identifier ++ " move scratchpad"]
    else
      [build_criteria config.identifier ++ " focus"]
  else
    ["exec", build_startup_command spawn config]

/-- `Spawn::handle_window` over the explicit `swaymsg` boundary, also
recording the trace of issued `swaymsg` argument vectors: look up the app
config, fetch and parse the tree, extract the windows and dispatch the single
chosen action.  Note that an `Ok` output of the dispatched call is accepted
without inspecting its exit status, exactly as the `?` operator in the
source only propagates the spawn error. -/
def handle_window (env : SwayEnv) (spawn : Spawn) (app_name : String) :
    Except String Unit × List (List String) :=
  match spawn.apps.lookup app_name with
  | none => (.error ("Unknown application: " ++ app_name), [])
  | some config =>
    match env.exec ["-t", "get_tree"] with
    | .error e => (.error e, [["-t", "get_tree"]])
    | .ok out =>
      match out.stdout with
      | none => (.error "failed to parse sway tree", [["-t", "get_tree"]])
      | some tree =>
        let windows := extract_windows tree
        let args := dispatch_args spawn config windows
        match env.exec args with
        | .error e => (.error e, [["-t", "get_tree"], args])
        | .ok _ => (.ok (), [["-t", "get_tree"], args])

/-- The process exit code chosen in `main`: 1 on any error, 0 on success. -/
def exit_code (r : Except String Unit) : Nat :=
  match r with
  | .ok _ => 0
  | .error _ => 1

theorem is_running_iff (windows : List SwayWindow) (identifier : WindowIdentifier) :
    is_running windows identifier = true ↔
      ∃ w ∈ windows, matches_identifier w identifier = true := by
  simp [is_running, List.any_eq_true]

theorem is_focused_iff (windows : List SwayWindow) (identifier : WindowIdentifier) :
    is_focused windows identifier = true ↔
      ∃ w ∈ windows, w.focused = true ∧ matches_identifier w identifier = true := by
  simp only [is_focused, List.any_eq_true]
  constructor
  · rintro ⟨w, hw, hcond⟩
    cases hf : w.focused with
    | false => simp [hf] at hcond
    | true => exact ⟨w, hw, hf, by simpa [hf] using hcond⟩
  · rintro ⟨w, hw, hfoc, hm⟩
    exact ⟨w, hw, by simp [hfoc, hm]⟩

/-- C1: state resolution is total — for every window list (including the
empty one) and every identifier it returns exactly one of the three states,
and it returns `Absent` iff no window matches the identifier; a matchless
identifier is a normal `Absent` result, not an error. -/
theorem c1_resolve_total_and_absent_iff
    (windows : List SwayWindow) (identifier : WindowIdentifier) :
    (resolve windows identifier = .Absent ∨
      resolve windows identifier = .PresentUnfocused ∨
      resolve windows identifier = .PresentFocused) ∧
    (resolve windows identifier = .Absent ↔
      ¬ ∃ w ∈ windows, matches_identifier w identifier = true) := by
  constructor
  · by_cases h1 : is_running windows identifier <;>
      by_cases h2 : is_focused windows identifier <;>
      simp [resolve, h1, h2]
  · rw [← is_running_iff]
    by_cases h1 : is_running windows identifier <;>
      by_cases h2 : is_focused windows identifier <;>
      simp [resolve, h1, h2]

/-- C2: when at least one window matches, the resolved state is
`PresentFocused` iff some *matching* window is focused; focus of
non-matching windows does not leak into the decision. -/
theorem c2_focused_iff_matching_focused
    (windows : List SwayWindow) (identifier : WindowIdentifier)
    (h : ∃ w ∈ windows, matches_identifier w identifier = true) :
    resolve windows identifier = .PresentFocused ↔
      ∃ w ∈ windows, w.focused = true ∧ matches_identifier w identifier = true := by
  have hrun : is_running windows identifier = true := (is_running_iff _ _).mpr h
  rw [← is_focused_iff]
  by_cases h2 : is_focused windows identifier <;> simp [resolve, hrun, h2]

/-- Witness for C2 at a two-window list where an unrelated focused window
does not make the matching app focused. -/
theorem c2_focused_iff_matching_focused_witness :
    (∃ w ∈ [⟨none, some "firefox", true, none, "con"⟩,
            (⟨none, some "obsidian", false, none, "con"⟩ : SwayWindow)],
        matches_identifier w (.AppId "obsidian") = true) ∧
    ¬ resolve [⟨none, some "firefox", true, none, "con"⟩,
               ⟨none, some "obsidian", false, none, "con"⟩] (.AppId "obsidian") =
        .PresentFocused := by
  refine ⟨by decide, ?_⟩
  rw [c2_focused_iff_matching_focused _ _ (by decide)]
  decide

/-- C10 (implicit): a window counted by `is_focused` must itself match the
identifier, so `is_focused` implies `is_running`; hence the Focus and Hide
branches of the toggle decision are reachable only when some window matches,
and the three branches are mutually exclusive and exhaustive. -/
theorem c10_focused_implies_running
    (spawn : Spawn) (config : AppConfig) (windows : List SwayWindow) :
    (is_focused windows config.identifier = true →
      is_running windows config.identifier = true) ∧
    (∀ c, decide_action spawn config windows = .Focus c ∨
        decide_action spawn config windows = .Hide c →
      ∃ w ∈ windows, matches_identifier w config.identifier = true) ∧
    (decide_action spawn config windows = .Launch (build_startup_command spawn config) ∨
      decide_action spawn config windows = .Focus (build_criteria config.identifier) ∨
      decide_action spawn config windows = .Hide (build_criteria config.identifier)) := by
  refine ⟨?_, ?_, ?_⟩
  · intro h
    rw [is_running_iff]
    obtain ⟨w, hw, _, hm⟩ := (is_focused_iff _ _).mp h
    exact ⟨w, hw, hm⟩
  · intro c hc
    rw [← is_running_iff]
    by_cases h1 : is_running windows config.identifier
    · exact h1
    · simp [decide_action, h1] at hc
  · by_cases h1 : is_running windows config.identifier <;>
      by_cases h2 : is_focused windows config.identifier <;>
      simp [decide_action, h1, h2]

/-- Witness for C10 at a singleton focused matching window. -/
theorem c10_focused_implies_running_witness :
    is_running [(⟨some "fish", none, true, none, "con"⟩ : SwayWindow)] (.Title "fish") =
      true ∧
    (∃ w ∈ [(⟨some "fish", none, true, none, "con"⟩ : SwayWindow)],
      matches_identifier w (.Title "fish") = true) := by
  have h := c10_focused_implies_running
    ⟨"alacritty", []⟩
    ⟨"fish", true, .Title "fish", none⟩
    [⟨some "fish", none, true, none, "con"⟩]
  exact ⟨h.1 (by decide), h.2.1 "[title=\"fish\"]" (by decide)⟩

/-- C3: the toggle decision maps the aggregate state to exactly one action
by the fixed table — `Absent` to `Launch` of the resolved startup command,
`PresentUnfocused` to `Focus` and `PresentFocused` to `Hide`, both via the
criteria rendered from the identifier — and the dispatched `swaymsg`
argument vector is `exec <cmd>`, `<criteria> focus`, or
`<criteria> move scratchpad` accordingly. -/
theorem c3_decision_table (spawn : Spawn) (config : AppConfig) (windows : List SwayWindow) :
    (decide_action spawn config windows =
      match resolve windows config.identifier with
      | .Absent => .Launch (build_startup_command spawn config)
      | .PresentUnfocused => .Focus (build_criteria config.identifier)
      | .PresentFocused => .Hide (build_criteria config.identifier)) ∧
    (dispatch_args spawn config windows =
      match decide_action spawn config windows with
      | .Launch cmd => ["exec", cmd]
      | .Focus criteria => [criteria ++ " focus"]
      | .Hide criteria => [criteria ++ " move scratchpad"]) ∧
    (resolve windows config.identifier = .Absent ↔
      decide_action spawn config windows = .Launch (build_startup_command spawn config)) ∧
    (resolve windows config.identifier = .PresentUnfocused ↔
      decide_action spawn config windows = .Focus (build_criteria config.identifier)) ∧
    (resolve windows config.identifier = .PresentFocused ↔
      decide_action spawn config windows = .Hide (build_criteria config.identifier)) := by
  by_cases h1 : is_running windows config.identifier <;>
    by_cases h2 : is_focused windows config.identifier <;>
    simp [decide_action, dispatch_args, resolve, h1, h2]

/-- C4: startup-command precedence — an override wins verbatim; otherwise a
terminal-flagged app whose identifier is `Title t` gets the synthesized
terminal command embedding the terminal program, the title and the payload
command; in every other case (including terminal-flagged apps not identified
by title) the configured command is returned unmodified. -/
theorem c4_startup_command_precedence (spawn : Spawn) (config : AppConfig) :
    (∀ s, config.startup_override = some s → build_startup_command spawn config = s) ∧
    (config.startup_override = none → config.is_terminal = true →
      ∀ t, config.identifier = .Title t →
        build_startup_command spawn config =
          spawn.terminal ++ " --title " ++ t ++ " --command " ++ config.command) ∧
    (config.startup_override = none →
      (config.is_terminal = false ∨ ∀ t, config.identifier ≠ .Title t) →
      build_startup_command spawn config = config.command) := by
  obtain ⟨command, is_term, identifier, startup_override⟩ := config
  refine ⟨?_, ?_, ?_⟩
  · intro s hs
    simp at hs
    simp [build_startup_command, hs]
  · intro hov hterm t hid
    simp at hov hid hterm
    simp [build_startup_command, hov, hterm, hid]
  · intro hov hcase
    simp at hov
    subst hov
    rcases hcase with hterm | hnotitle
    · simp at hterm
      simp [build_startup_command, hterm]
    · cases identifier with
      | Title t => exact absurd rfl (hnotitle t)
      | AppId a => cases is_term <;> simp [build_startup_command]
      | Class c => cases is_term <;> simp [build_startup_command]

/-- Witness for C4: an override wins over the terminal/title logic; without
an override the terminal command is synthesized; a terminal app identified
by app_id keeps its command. -/
theorem c4_startup_command_precedence_witness :
    build_startup_command ⟨"alacritty", []⟩ ⟨"fish", true, .Title "fish", some "foot"⟩ =
      "foot" ∧
    build_startup_command ⟨"alacritty", []⟩ ⟨"fish", true, .Title "fish", none⟩ =
      "alacritty --title fish --command fish" ∧
    build_startup_command ⟨"alacritty", []⟩ ⟨"ipython", true, .AppId "ipython", none⟩ =
      "ipython" := by
  refine ⟨?_, ?_, ?_⟩
  · exact (c4_startup_command_precedence ⟨"alacritty", []⟩
      ⟨"fish", true, .Title "fish", some "foot"⟩).1 "foot" rfl
  · have := (c4_startup_command_precedence ⟨"alacritty", []⟩
      ⟨"fish", true, .Title "fish", none⟩).2.1 rfl rfl "fish" rfl
    rw [this]
    rfl
  · exact (c4_startup_command_precedence ⟨"alacritty", []⟩
      ⟨"ipython", true, .AppId "ipython", none⟩).2.2 rfl (.inr (by intro t h; cases h))

/-- C5: the matcher is true iff the field selected by the identifier variant
is present (through every optional layer) and ASCII case-insensitively equal
to the identifier's value; any missing layer gives `false` without error,
and the comparison forces equal lengths, so there is no substring matching. -/
theorem c5_matches_characterisation (w : SwayWindow) :
    (∀ t, matches_identifier w (.Title t) = true ↔
      ∃ s, w.title = some s ∧ eq_ignore_ascii_case s t = true) ∧
    (∀ a, matches_identifier w (.AppId a) = true ↔
      ∃ s, w.app_id = some s ∧ eq_ignore_ascii_case s a = true) ∧
    (∀ c, matches_identifier w (.Class c) = true ↔
      ∃ wp s, w.window_properties = some wp ∧ wp.«class» = some s ∧
        eq_ignore_ascii_case s c = true) ∧
    (∀ s t, eq_ignore_ascii_case s t = true → s.length = t.length) := by
  obtain ⟨title, app_id, focused, props, wtype⟩ := w
  refine ⟨?_, ?_, ?_, ?_⟩
  · intro t
    cases title <;> simp [matches_identifier]
  · intro a
    cases app_id <;> simp [matches_identifier]
  · intro c
    cases props with
    | none => simp [matches_identifier]
    | some wp =>
      obtain ⟨cls⟩ := wp
      cases cls <;> simp [matches_identifier]
  · intro s t h
    simp only [eq_ignore_ascii_case, beq_iff_eq] at h
    have h2 := congrArg List.length h
    simp only [List.length_map] at h2
    calc s.length = s.data.length := rfl
      _ = t.data.length := h2
      _ = t.length := rfl

/-- Witness for C5: mixed-case ASCII-equal strings match, and the length
consequence holds at a concrete pair. -/
theorem c5_matches_characterisation_witness :
    (∃ s, (some "FiSh" : Option String) = some s ∧ eq_ignore_ascii_case s "fish" = true) ∧
    ("FiSh" : String).length = ("fish" : String).length := by
  refine ⟨?_, ?_⟩
  · exact (c5_matches_characterisation ⟨some "FiSh", none, false, none, "con"⟩).1 "fish"
      |>.mp (by decide)
  · exact (c5_matches_characterisation ⟨some "FiSh", none, false, none, "con"⟩).2.2.2
      "FiSh" "fish" (by decide)

theorem length_filterMap_eq_countP {α β : Type} (f : α → Option β) (l : List α) :
    (l.filterMap f).length = l.countP (fun a => (f a).isSome) := by
  induction l with
  | nil => simp
  | cons a l ih => cases h : f a <;> simp [List.filterMap_cons, h, List.countP_cons, ih]

/-- A tree whose three window-bearing nodes sit at different depths, split
across the regular and the floating child lists. -/
def sample_tree : Json :=
  Json.obj [("type", .str "root"),
    ("nodes", .arr [Json.obj [("type", .str "workspace"),
      ("nodes", .arr [Json.obj [("type", .str "con"), ("name", .str "w1"),
        ("app_id", .str "a1"), ("focused", .bool false)]]),
      ("floating_nodes", .arr [Json.obj [("type", .str "floating_con"),
        ("name", .str "w2"), ("focused", .bool true)]])]]),
    ("floating_nodes", .arr [Json.obj [("type", .str "floating_con"),
      ("name", .str "w3"), ("app_id", .str "a3"), ("focused", .bool false)]])]

/-- A tree with no window-bearing node: a bare root with empty child lists. -/
def empty_tree : Json :=
  Json.obj [("type", .str "root"), ("nodes", .arr []), ("floating_nodes", .arr [])]

/-- C6: extraction contributes a record for a visited node iff the node's
`type` field is present and equals one of exactly the two window-bearing
kinds and the node decodes into a window record; it recurses into both the
`nodes` and the `floating_nodes` list of every node, neither being assumed
present; hence the record count equals the count of contributing visited
nodes, a sample tree with three well-formed window nodes split across both
list kinds at different depths yields exactly those three records, and an
empty tree yields none. -/
theorem c6_extraction_characterisation :
    (∀ j : Json, extract_windows j = (node_list j).filterMap windowRecord) ∧
    (∀ j : Json, (windowRecord j).isSome = true ↔
      ∃ t, j.get "type" = some (.str t) ∧ (t = "floating_con" ∨ t = "con") ∧
        (decodeSwayWindow j).isSome = true) ∧
    (∀ j : Json, node_list j =
      j :: (node_list_list (j.getArr "nodes") ++
        node_list_list (j.getArr "floating_nodes"))) ∧
    (∀ j : Json, (extract_windows j).length =
      (node_list j).countP (fun n => (windowRecord n).isSome)) ∧
    extract_windows sample_tree =
      [⟨some "w1", some "a1", false, none, "con"⟩,
       ⟨some "w2", none, true, none, "floating_con"⟩,
       ⟨some "w3", some "a3", false, none, "floating_con"⟩] ∧
    extract_windows empty_tree = [] := by
  refine ⟨extract_windows_eq, ?_, ?_, ?_, ?_, ?_⟩
  · intro j
    unfold windowRecord
    cases hg : j.get "type" with
    | none => simp
    | some v =>
      cases v <;> simp
      case str t =>
        by_cases ht : t = "floating_con" ∨ t = "con" <;> simp [ht]
  · intro j
    rw [node_list]
  · intro j
    rw [extract_windows_eq, length_filterMap_eq_countP]
  · simp [sample_tree, extract_windows, extract_windows_list, windowRecord,
      decodeSwayWindow, Json.getArr, Json.get, getField, decodeOptString,
      decodeBool, decodeString, decodeOptProps]
  · simp [empty_tree, extract_windows, extract_windows_list, windowRecord,
      decodeSwayWindow, Json.getArr, Json.get, getField, decodeString]

/-- A tree holding one well-formed `con` node and one malformed `con` node
(its required `focused` field is missing, so decoding fails). -/
def mixed_tree : Json :=
  Json.obj [("type", .str "root"),
    ("nodes", .arr [Json.obj [("type", .str "con"), ("name", .str "good"),
        ("focused", .bool false)],
      Json.obj [("type", .str "con"), ("name", .str "bad")]])]

/-- C7: a node of window-bearing kind whose shape fails to decode contributes
no record but is skipped without error — its child lists are still visited —
and every other well-formed window-bearing node is still returned; the
sample tree with one well-formed and one malformed window node yields
exactly one record. -/
theorem c7_malformed_node_skipped :
    (∀ j t, j.get "type" = some (.str t) → (t = "floating_con" ∨ t = "con") →
      decodeSwayWindow j = none → windowRecord j = none) ∧
    (∀ j : Json, windowRecord j = none →
      extract_windows j = extract_windows_list (j.getArr "nodes") ++
        extract_windows_list (j.getArr "floating_nodes")) ∧
    extract_windows mixed_tree = [⟨some "good", none, false, none, "con"⟩] := by
  refine ⟨?_, ?_, ?_⟩
  · intro j t hg ht hd
    unfold windowRecord
    rw [hg]
    simp [ht, hd]
  · intro j hw
    rw [extract_windows, hw]
    simp
  · simp [mixed_tree, extract_windows, extract_windows_list, windowRecord,
      decodeSwayWindow, Json.getArr, Json.get, getField, decodeOptString,
      decodeBool, decodeString, decodeOptProps]

/-- Witness for C7 at the malformed node of the sample tree: its kind is
window-bearing, decoding fails, no record is contributed, and extraction on
it returns the (empty) extraction of its child lists. -/
theorem c7_malformed_node_skipped_witness :
    windowRecord (Json.obj [("type", Json.str "con"), ("name", Json.str "bad")]) = none ∧
    extract_windows (Json.obj [("type", Json.str "con"), ("name", Json.str "bad")]) =
      extract_windows_list ((Json.obj [("type", Json.str "con"),
          ("name", Json.str "bad")]).getArr "nodes") ++
        extract_windows_list ((Json.obj [("type", Json.str "con"),
          ("name", Json.str "bad")]).getArr "floating_nodes") := by
  have h1 := c7_malformed_node_skipped.1
    (Json.obj [("type", Json.str "con"), ("name", Json.str "bad")]) "con"
    (by simp [Json.get, getField]) (Or.inr rfl)
    (by simp [decodeSwayWindow, getField, decodeOptString, decodeBool])
  exact ⟨h1, c7_malformed_node_skipped.2.1 _ h1⟩

theorem strip_quote_bracket_append (cs : List Char) :
    strip_quote_bracket (cs ++ ['\"', ']']) = some cs := by
  unfold strip_quote_bracket
  rw [List.reverse_append]
  simp

/-- C8: the rendered selector pairs the predicate name determined by the
variant (`title`, `app_id`, `class`) with the identifier's literal value,
and variant plus value round-trip losslessly through the rendered string —
an explicit recovery function inverts the rendering (also for values holding
quote or bracket characters), so equal selectors imply equal identifiers. -/
theorem c8_criteria_roundtrip :
    (∀ t, build_criteria (.Title t) = "[title=\"" ++ t ++ "\"]") ∧
    (∀ a, build_criteria (.AppId a) = "[app_id=\"" ++ a ++ "\"]") ∧
    (∀ c, build_criteria (.Class c) = "[class=\"" ++ c ++ "\"]") ∧
    (∀ identifier : WindowIdentifier,
      recover_identifier (build_criteria identifier) = some identifier) ∧
    (∀ id1 id2 : WindowIdentifier,
      build_criteria id1 = build_criteria id2 → id1 = id2) := by
  have hrec : ∀ identifier : WindowIdentifier,
      recover_identifier (build_criteria identifier) = some identifier := by
    intro identifier
    cases identifier with
    | Title t =>
      obtain ⟨cs⟩ := t
      have hd : (build_criteria (.Title (String.mk cs))).data
          = "[title=\"".data ++ (cs ++ ['\"', ']']) := by
        simp [build_criteria, String.data_append]
      unfold recover_identifier
      rw [hd, List.take_left' (by decide), if_pos rfl, List.drop_left' (by decide),
        strip_quote_bracket_append]
      rfl
    | AppId a =>
      obtain ⟨cs⟩ := a
      have hd : (build_criteria (.AppId (String.mk cs))).data
          = "[app_id=\"".data ++ (cs ++ ['\"', ']']) := by
        simp [build_criteria, String.data_append]
      unfold recover_identifier
      rw [hd, List.take_append_of_le_length (by decide), if_neg (by decide),
        List.take_left' (by decide), if_pos rfl, List.drop_left' (by decide),
        strip_quote_bracket_append]
      rfl
    | Class c =>
      obtain ⟨cs⟩ := c
      have hd : (build_criteria (.Class (String.mk cs))).data
          = "[class=\"".data ++ (cs ++ ['\"', ']']) := by
        simp [build_criteria, String.data_append]
      unfold recover_identifier
      rw [hd, List.take_left' (by decide), if_neg (by decide)]
      have happ :
          ¬ (List.take 9 ("[class=\"".data ++ (cs ++ ['\"', ']'])) = "[app_id=\"".data) := by
        intro h
        simp at h
      rw [if_neg happ, if_pos rfl, List.drop_left' (by decide), strip_quote_bracket_append]
      rfl
  refine ⟨fun t => rfl, fun a => rfl, fun c => rfl, hrec, ?_⟩
  intro id1 id2 h
  have h1 := hrec id1
  rw [h, hrec id2] at h1
  exact (Option.some.inj h1).symm

/-- Witness for C8 at a value containing quote and bracket characters. -/
theorem c8_criteria_roundtrip_witness :
    recover_identifier (build_criteria (.Title "we\"]ird")) =
      some (.Title "we\"]ird") ∧
    (WindowIdentifier.AppId "obsidian") = .AppId "obsidian" := by
  exact ⟨c8_criteria_roundtrip.2.2.2.1 (.Title "we\"]ird"),
    c8_criteria_roundtrip.2.2.2.2 (.AppId "obsidian") (.AppId "obsidian") rfl⟩

/-- A configuration with one GUI application. -/
def c9_spawn : Spawn :=
  ⟨"alacritty", [("obsidian", ⟨"obsidian", false, .AppId "obsidian", none⟩)]⟩

/-- A `swaymsg` boundary whose tree query succeeds with an empty tree and
whose dispatched action command runs but exits with a non-success status
(the failure indication is delivered in the output, not as a spawn error). -/
def c9_env : SwayEnv :=
  ⟨fun args =>
    if args = ["-t", "get_tree"] then .ok ⟨true, some empty_tree⟩
    else .ok ⟨false, none⟩⟩

/-- A `swaymsg` boundary whose dispatched action command fails to execute. -/
def c9_err_env : SwayEnv :=
  ⟨fun args =>
    if args = ["-t", "get_tree"] then .ok ⟨true, some empty_tree⟩
    else .error "spawn failed"⟩

theorem extract_empty_tree : extract_windows empty_tree = [] := by
  simp [empty_tree, extract_windows, extract_windows_list, windowRecord,
    decodeSwayWindow, Json.getArr, Json.get, getField, decodeString]

/-- C9 counterexample: the dispatched action command runs and returns a
failure indication (non-success exit status), yet the invocation does not
report a fatal error — it completes with `ok` and exit code 0, because the
source never inspects the dispatched command's exit status. -/
theorem c9_failure_indication_not_fatal :
    c9_env.exec ["exec", "obsidian"] = .ok ⟨false, none⟩ ∧
    (handle_window c9_env c9_spawn "obsidian").1 = .ok () ∧
    (handle_window c9_env c9_spawn "obsidian").2 =
      [["-t", "get_tree"], ["exec", "obsidian"]] ∧
    exit_code (handle_window c9_env c9_spawn "obsidian").1 = 0 := by
  have hdarg :
      dispatch_args c9_spawn ⟨"obsidian", false, .AppId "obsidian", none⟩
        (extract_windows empty_tree) = ["exec", "obsidian"] := by
    rw [extract_empty_tree]
    simp [dispatch_args, is_running, build_startup_command]
  refine ⟨by simp [c9_env], ?_, ?_, ?_⟩ <;>
    simp [handle_window, c9_env, c9_spawn, List.lookup, exit_code, hdarg,
      extract_empty_tree, dispatch_args, is_running, build_startup_command]

/-- C9 (amended): after a successful tree fetch and parse, exactly one
action command is dispatched (no retry); if that command fails to execute
the invocation reports the error fatally with exit code 1, while an
executed command is treated as success regardless of the failure indication
it returns, giving exit code 0 — there is no partial-success state beyond
the single dispatched action. -/
theorem c9_dispatch_error_fatal_no_retry
    (env : SwayEnv) (spawn : Spawn) (app_name : String) (config : AppConfig)
    (h1 : spawn.apps.lookup app_name = some config)
    (out : ExecOutput) (h2 : env.exec ["-t", "get_tree"] = .ok out)
    (tree : Json) (h3 : out.stdout = some tree) :
    (∀ e, env.exec (dispatch_args spawn config (extract_windows tree)) = .error e →
      handle_window env spawn app_name =
        (.error e, [["-t", "get_tree"],
          dispatch_args spawn config (extract_windows tree)]) ∧
      exit_code (handle_window env spawn app_name).1 = 1) ∧
    (∀ o, env.exec (dispatch_args spawn config (extract_windows tree)) = .ok o →
      handle_window env spawn app_name =
        (.ok (), [["-t", "get_tree"],
          dispatch_args spawn config (extract_windows tree)]) ∧
      exit_code (handle_window env spawn app_name).1 = 0) := by
  constructor <;> intro x hx <;>
    simp [handle_window, h1, h2, h3, hx, exit_code]

/-- Witness for C9's amended theorem: a dispatch that fails to execute is
reported fatally with exit code 1 after exactly one attempt. -/
theorem c9_dispatch_error_fatal_no_retry_witness :
    handle_window c9_err_env c9_spawn "obsidian" =
      (.error "spawn failed", [["-t", "get_tree"],
        dispatch_args c9_spawn ⟨"obsidian", false, .AppId "obsidian", none⟩
          (extract_windows empty_tree)]) ∧
    exit_code (handle_window c9_err_env c9_spawn "obsidian").1 = 1 := by
  refine (c9_dispatch_error_fatal_no_retry c9_err_env c9_spawn "obsidian"
    ⟨"obsidian", false, .AppId "obsidian", none⟩ (by simp [c9_spawn, List.lookup])
    ⟨true, some empty_tree⟩ (by simp [c9_err_env]) empty_tree rfl).1 "spawn failed" ?_
  have hdarg :
      dispatch_args c9_spawn ⟨"obsidian", false, .AppId "obsidian", none⟩
        (extract_windows empty_tree) = ["exec", "obsidian"] := by
    rw [extract_empty_tree]
    simp [dispatch_args, is_running, build_startup_command]
  rw [hdarg]
  simp [c9_err_env]
